import Mathlib

/-!
Verification of the date-watermarking tool `exif_watermarker_min.py` against its
natural-language specification.  The Python source is shallowly embedded below:
pure string/arithmetic functions are translated directly; the library-dependent
tiers (piexif, Pillow, the filesystem) are modelled by explicit environment
records whose `Option` fields record whether the corresponding library call
raises or returns a value; every Python exception that the source catches is
represented by `none`/`Option`.  Python character-level operations are modelled
over ASCII (Python also accepts some exotic Unicode digits/whitespace, which no
claim here depends on).
-/

namespace ExifWatermarker

/-- ASCII whitespace, as stripped by Python `str.strip()` (Unicode whitespace
is abstracted away). -/
def pyIsSpace (c : Char) : Bool :=
  c = ' ' || c = '\t' || c = '\n' || c = '\r' || c = '\x0b' || c = '\x0c'

/-- `'0'..'9'`. -/
def isAsciiDigit (c : Char) : Bool := '0' ≤ c && c ≤ '9'

/-- Numeric value of a decimal digit character. -/
def digitVal (c : Char) : Nat := c.toNat - 48

/-- Remove trailing ASCII whitespace. -/
def stripTrailing (l : List Char) : List Char :=
  (l.reverse.dropWhile pyIsSpace).reverse

/-- Python `str.strip()`: remove leading and trailing whitespace. -/
def pyStrip (l : List Char) : List Char :=
  stripTrailing (l.dropWhile pyIsSpace)

/-- Python `str.split(sep)` for a one-character separator: split on every
occurrence, keeping empty fields; `"".split(sep) == [""]`. -/
def splitOnChar (c : Char) : List Char → List (List Char)
  | [] => [[]]
  | x :: xs =>
    if x = c then [] :: splitOnChar c xs
    else
      match splitOnChar c xs with
      | [] => [[x]]
      | h :: t => (x :: h) :: t

/-- `s.split(" ")[0]` — the prefix before the first space. -/
def firstField (l : List Char) : List Char :=
  (splitOnChar ' ' l).headD []

/-- Digit-run parser shared by the models of Python `int()`/`float()`:
accepts decimal digits with single underscores strictly between digits
(PEP 515), returns the value together with the number of digits consumed.
The whole list must be consumed. -/
def parseUDigitsCore (accv accn : Nat) : List Char → Option (Nat × Nat)
  | [] => some (accv, accn)
  | c :: cs =>
    if isAsciiDigit c then parseUDigitsCore (accv * 10 + digitVal c) (accn + 1) cs
    else if c = '_' then
      match cs with
      | [] => none
      | c2 :: cs2 =>
        if isAsciiDigit c2 then parseUDigitsCore (accv * 10 + digitVal c2) (accn + 1) cs2
        else none
    else none

/-- A nonempty underscore-grouped digit run (must start with a digit). -/
def parseUDigits : List Char → Option (Nat × Nat)
  | [] => none
  | c :: cs => if isAsciiDigit c then parseUDigitsCore (digitVal c) 1 cs else none

/-- Python `int(s)` on a string: strip whitespace, optional sign, decimal
digits (underscore-grouped).  `none` models a raised `ValueError`. -/
def pyIntParse (l : List Char) : Option Int :=
  if (pyStrip l).headD ' ' = '+' then
    (parseUDigits (pyStrip l).tail).map (fun p => (p.1 : Int))
  else if (pyStrip l).headD ' ' = '-' then
    (parseUDigits (pyStrip l).tail).map (fun p => -(p.1 : Int))
  else (parseUDigits (pyStrip l)).map (fun p => (p.1 : Int))

/-- Gregorian leap year, as validated by `datetime.date`. -/
def isLeap (y : Nat) : Bool := y % 4 = 0 && (y % 100 ≠ 0 || y % 400 = 0)

/-- Days in a month, as validated by `datetime.date`. -/
def daysInMonth (y m : Nat) : Nat :=
  if m = 2 then (if isLeap y then 29 else 28)
  else if m = 4 || m = 6 || m = 9 || m = 11 then 30
  else 31

/-- The (year, month, day) triples accepted by the `datetime` constructor:
`MINYEAR = 1 ≤ y ≤ MAXYEAR = 9999`, a real calendar date. -/
def isValidDate (y m d : Nat) : Bool :=
  1 ≤ y && y ≤ 9999 && 1 ≤ m && m ≤ 12 && 1 ≤ d && d ≤ daysInMonth y m

/-- `datetime(int(y), int(m), int(d))` succeeds exactly on these `Int` triples. -/
def datetimeOK (y m d : Int) : Bool :=
  1 ≤ y && y ≤ 9999 && 1 ≤ m && m ≤ 12 && 1 ≤ d && (d ≤ (daysInMonth y.toNat m.toNat : Int))

/-- Zero-padded two-digit decimal rendering (`strftime` `%m` / `%d`). -/
def pad2 (n : Nat) : List Char := [Nat.digitChar (n / 10 % 10), Nat.digitChar (n % 10)]

/-- Zero-padded four-digit decimal rendering (`strftime` `%Y`; CPython
documents `%Y` as zero-padded, `0001`-style). -/
def pad4 (n : Nat) : List Char :=
  [Nat.digitChar (n / 1000 % 10), Nat.digitChar (n / 100 % 10),
   Nat.digitChar (n / 10 % 10), Nat.digitChar (n % 10)]

/-- `datetime(y, m, d).strftime("%Y-%m-%d")`. -/
def strfDate (y m d : Nat) : String :=
  String.mk (pad4 y ++ '-' :: pad2 m ++ '-' :: pad2 d)

/-- A raw value read out of a metadata dictionary: a text string, a byte
sequence, or Python `None`. -/
inductive PyVal where
  | vstr (s : String)
  | vbytes (b : List Nat)
  | vnone
deriving DecidableEq

/-- Python truthiness of such a value (`if raw:`). -/
def pyValTruthy : PyVal → Bool
  | .vstr s => !s.data.isEmpty
  | .vbytes b => !b.isEmpty
  | .vnone => false

/-- `raw.replace("-", ":")` for the one-character pattern. -/
def dashToColon (c : Char) : Char := if c = '-' then ':' else c

/-- The component pipeline of `format_exif_raw`:
`raw.strip().split(" ")[0].replace("-", ":").split(":")`. -/
def dateComponents (l : List Char) : List (List Char) :=
  splitOnChar ':' ((firstField (pyStrip l)).map dashToColon)

/-- The tail of `format_exif_raw` after the component split: require at least
three components (`parts[0:3]`), `int` them, validate through the `datetime`
constructor and render; the `except` turns every failure into `None`. -/
def parseDateTriple (parts : List (List Char)) : Option String :=
  match parts with
  | p0 :: p1 :: p2 :: _ =>
    match pyIntParse p0, pyIntParse p1, pyIntParse p2 with
    | some y, some m, some d =>
      if datetimeOK y m d then some (strfDate y.toNat m.toNat d.toNat) else none
    | _, _, _ => none
  | _ => none

/-- `format_exif_raw` (source lines 38–49): reject non-strings and falsy
values; split off the time-of-day; unify separators; then parse/validate the
leading component triple. -/
def format_exif_raw (raw : PyVal) : Option String :=
  match raw with
  | .vstr s => if s.data.isEmpty then none else parseDateTriple (dateComponents s.data)
  | _ => none

/-- The malformed component lists described by the specification: fewer than
three components, a non-numeric component among the first three, or a numeric
triple that the `datetime` constructor rejects. -/
def malformedTriple (parts : List (List Char)) : Bool :=
  match parts with
  | p0 :: p1 :: p2 :: _ =>
    match pyIntParse p0, pyIntParse p1, pyIntParse p2 with
    | some y, some m, some d => !datetimeOK y m d
    | _, _, _ => true
  | _ => true

/-- The malformed-input set described by the specification for
`format_exif_raw`, phrased on the raw string through the same
strip/split/replace/split pipeline. -/
def malformedDateInput (s : String) : Bool := malformedTriple (dateComponents s.data)

/-- `bytes.decode()` modelled for ASCII byte sequences; a byte ≥ 128 makes the
model fail (`UnicodeDecodeError` is one way the real call fails; multi-byte
UTF-8 sequences are out of the modelled alphabet, and no claim depends on
them). -/
def decodeAscii (b : List Nat) : Option String :=
  if b.all (fun x => x < 128) then some (String.mk (b.map Char.ofNat)) else none

/-- `raw = v.decode() if isinstance(v, (bytes, bytearray)) else str(v)`
(source line 58/62); `none` models a raised decode error. -/
def rawOf (v : PyVal) : Option String :=
  match v with
  | .vstr s => some s
  | .vbytes b => decodeAscii b
  | .vnone => some "None"

/-- The two piexif dictionary slots probed by `get_date_from_piexif`:
`exif["Exif"][piexif.ExifIFD.DateTimeOriginal]` and
`exif["0th"][piexif.ImageIFD.DateTime]` (`none` = key absent). -/
structure PiexifData where
  exifDTO : Option PyVal
  zerothDT : Option PyVal
deriving DecidableEq

/-- Everything the date-resolution chain reads from the outside world for one
path.  `piexifLoad = none` models `piexif.load` raising; `pillowExif = none`
models `Image.open`/`_getexif` raising, `some none` models `_getexif()`
returning `None`; `mtimeDate` holds the calendar components of
`datetime.fromtimestamp(os.path.getmtime(path))`, `none` modelling a raised
`OSError` for an inaccessible file. -/
structure FileEnv where
  havePiexif : Bool
  piexifLoad : Option PiexifData
  pillowExif : Option (Option (List (Nat × PyVal)))
  mtimeDate : Option (Nat × Nat × Nat)

/-- The `date0` probe at the end of `get_date_from_piexif` (source lines
60–63). -/
def piexifSecond (pd : PiexifData) : Option String :=
  match pd.zerothDT with
  | some v =>
    if pyValTruthy v then
      match rawOf v with
      | some raw => format_exif_raw (.vstr raw)
      | none => none
    else none
  | none => none

/-- `get_date_from_piexif` (source lines 51–66): absent library or a raised
load are `None`; a present truthy `DateTimeOriginal` is decoded and
normalized — the `DateTime` slot is only probed when `DateTimeOriginal` is
absent or falsy. -/
def get_date_from_piexif (env : FileEnv) : Option String :=
  if env.havePiexif = false then none
  else
    match env.piexifLoad with
    | none => none
    | some pd =>
      match pd.exifDTO with
      | some v =>
        if pyValTruthy v then
          match rawOf v with
          | some raw => format_exif_raw (.vstr raw)
          | none => none
        else piexifSecond pd
      | none => piexifSecond pd

/-- Python dict lookup on the modelled `_getexif()` dictionary. -/
def lookupTag (dict : List (Nat × PyVal)) (t : Nat) : Option PyVal :=
  match dict with
  | [] => none
  | p :: rest => if p.1 = t then some p.2 else lookupTag rest t

/-- One iteration of the Pillow probing loop: the tag must be present and
truthy (`if tag and tag in exif and exif[tag]:`). -/
def probeStep (dict : List (Nat × PyVal)) (t : Nat) : Option PyVal :=
  match lookupTag dict t with
  | some v => if pyValTruthy v then some v else none
  | none => none

/-- The loop over `("DateTimeOriginal", "DateTime", "DateTimeDigitized")`;
`ExifTags.TAGS` maps these names to tags 36867, 306 and 36868. -/
def probePillow (dict : List (Nat × PyVal)) : Option PyVal :=
  match probeStep dict 36867 with
  | some v => some v
  | none =>
    match probeStep dict 306 with
    | some v => some v
    | none => probeStep dict 36868

/-- `get_date_from_pillow` (source lines 68–82): a raised open/read or a falsy
metadata dictionary is `None`; otherwise the first present truthy tag value is
passed to `format_exif_raw` *undecoded* and its result returned. -/
def get_date_from_pillow (env : FileEnv) : Option String :=
  match env.pillowExif with
  | none => none
  | some none => none
  | some (some dict) =>
    if dict.isEmpty then none
    else
      match probePillow dict with
      | some v => format_exif_raw v
      | none => none

/-- Truthiness of an optional string (`if d:`). -/
def pyOptStrTruthy : Option String → Bool
  | none => false
  | some s => !s.data.isEmpty

/-- `get_date_string` (source lines 84–97): piexif first (guarded by
`HAVE_PIEXIF`), then Pillow, then the file's modification date; a raised
`getmtime` yields `None`. -/
def get_date_string (env : FileEnv) : Option String :=
  if pyOptStrTruthy (if env.havePiexif then get_date_from_piexif env else none) then
    (if env.havePiexif then get_date_from_piexif env else none)
  else if pyOptStrTruthy (get_date_from_pillow env) then get_date_from_pillow env
  else
    match env.mtimeDate with
    | some (y, m, d) => some (strfDate y m d)
    | none => none

/-- `'0'..'9' | 'a'..'f' | 'A'..'F'`. -/
def isHexDigit (c : Char) : Bool :=
  isAsciiDigit c || ('a' ≤ c && c ≤ 'f') || ('A' ≤ c && c ≤ 'F')

/-- Value of a hexadecimal digit character. -/
def hexVal (c : Char) : Nat :=
  if isAsciiDigit c then digitVal c
  else if 'a' ≤ c && c ≤ 'f' then c.toNat - 87
  else c.toNat - 55

/-- Hexadecimal digit run with PEP 515 underscores, whole-list. -/
def parseUHexCore (accv : Nat) : List Char → Option Nat
  | [] => some accv
  | c :: cs =>
    if isHexDigit c then parseUHexCore (accv * 16 + hexVal c) cs
    else if c = '_' then
      match cs with
      | [] => none
      | c2 :: cs2 => if isHexDigit c2 then parseUHexCore (accv * 16 + hexVal c2) cs2 else none
    else none

/-- A nonempty underscore-grouped hexadecimal digit run. -/
def parseUHex : List Char → Option Nat
  | [] => none
  | c :: cs => if isHexDigit c then parseUHexCore (hexVal c) cs else none

/-- The unsigned body of `int(s, 16)`: an optional `0x`/`0X` prefix (with an
optional single underscore after it), then hex digits. -/
def hexBody (l : List Char) : Option Nat :=
  match l with
  | '0' :: c :: rest =>
    if c = 'x' ∨ c = 'X' then
      match rest with
      | '_' :: r2 => parseUHex r2
      | r => parseUHex r
    else parseUHex l
  | _ => parseUHex l

/-- Python `int(s, 16)`; `none` models a raised `ValueError`. -/
def pyIntHexParse (l : List Char) : Option Int :=
  if (pyStrip l).headD ' ' = '+' then (hexBody (pyStrip l).tail).map (fun n => (n : Int))
  else if (pyStrip l).headD ' ' = '-' then
    (hexBody (pyStrip l).tail).map (fun n => -(n : Int))
  else (hexBody (pyStrip l)).map (fun n => (n : Int))

/-- The fixed color-name table of `parse_color`. -/
def colorNames : List (String × (Int × Int × Int)) :=
  [("white", (255, 255, 255)), ("black", (0, 0, 0)), ("red", (255, 0, 0)),
   ("yellow", (255, 255, 0)), ("blue", (0, 0, 255)), ("green", (0, 128, 0))]

/-- First-match association lookup (`dict.get` with a default). -/
def namesGet (l : List (String × (Int × Int × Int))) (k : String)
    (dflt : Int × Int × Int) : Int × Int × Int :=
  match l with
  | [] => dflt
  | p :: rest => if p.1 = k then p.2 else namesGet rest k dflt

/-- `parse_color` (source lines 99–111): strip; a 7-character `#`-string is
parsed as three 2-digit hex components — `int(_, 16)` failures are *not*
caught, which `none` models as an escaping `ValueError`; everything else is
looked up lowercased in the name table with white as the default. -/
def parse_color (s : String) : Option (Int × Int × Int) :=
  let l := pyStrip s.data
  if l.headD ' ' = '#' ∧ l.length = 7 then
    match pyIntHexParse ((l.drop 1).take 2), pyIntHexParse ((l.drop 3).take 2),
          pyIntHexParse ((l.drop 5).take 2) with
    | some r, some g, some b => some (r, g, b)
    | _, _, _ => none
  else some (namesGet colorNames (String.mk (l.map Char.toLower)) (255, 255, 255))

/-- An unnormalized rational `num / den` with `den > 0` by construction; the
value of a finite Python float, with the binary rounding of IEEE 754
abstracted to exact rational arithmetic (no claim depends on rounding). -/
structure PyQ where
  num : Int
  den : Nat
deriving DecidableEq

/-- The result of Python `float(s)`. -/
inductive PFloat where
  | finite (q : PyQ)
  | inf
  | neginf
  | nan
deriving DecidableEq

/-- Mantissa `ddd`, `ddd.ddd`, `.ddd` or `ddd.` as an exact rational. -/
def parseMantissa (m : List Char) : Option PyQ :=
  match splitOnChar '.' m with
  | [i] => (parseUDigits i).map (fun p => ⟨(p.1 : Int), 1⟩)
  | [i, f] =>
    match i, f with
    | [], [] => none
    | [], fl => (parseUDigits fl).map (fun p => ⟨(p.1 : Int), 10 ^ p.2⟩)
    | il, [] => (parseUDigits il).map (fun p => ⟨(p.1 : Int), 1⟩)
    | il, fl =>
      match parseUDigits il, parseUDigits fl with
      | some pi, some pf => some ⟨(pi.1 : Int) * 10 ^ pf.2 + pf.1, 10 ^ pf.2⟩
      | _, _ => none
  | _ => none

/-- A signed exponent part. -/
def parseExp (l : List Char) : Option Int :=
  match l with
  | '+' :: r => (parseUDigits r).map (fun p => (p.1 : Int))
  | '-' :: r => (parseUDigits r).map (fun p => -(p.1 : Int))
  | r => (parseUDigits r).map (fun p => (p.1 : Int))

/-- Scale a rational by `10 ^ e`. -/
def qScaleExp (q : PyQ) (e : Int) : PyQ :=
  if 0 ≤ e then ⟨q.num * 10 ^ e.toNat, q.den⟩ else ⟨q.num, q.den * 10 ^ (-e).toNat⟩

/-- Negate. -/
def qNeg (q : PyQ) : PyQ := ⟨-q.num, q.den⟩

/-- Python `float(s)`; `none` models a raised `ValueError`. -/
def pyFloatParse (s : String) : Option PFloat :=
  match pyStrip s.data with
  | [] => none
  | l =>
    let sgnNeg : Bool := l.headD ' ' = '-'
    let body := if l.headD ' ' = '-' ∨ l.headD ' ' = '+' then l.drop 1 else l
    let low := body.map Char.toLower
    if low = "inf".data ∨ low = "infinity".data then
      some (if sgnNeg then .neginf else .inf)
    else if low = "nan".data then some .nan
    else
      match splitOnChar 'e' low with
      | [m] => (parseMantissa m).map (fun q => .finite (if sgnNeg then qNeg q else q))
      | [m, ex] =>
        match parseMantissa m, parseExp ex with
        | some q, some e =>
          some (.finite (if sgnNeg then qNeg (qScaleExp q e) else qScaleExp q e))
        | _, _ => none
      | _ => none

/-- Python `int(x)` on a rational value: truncation toward zero. -/
def pyTrunc (q : PyQ) : Int := Int.tdiv q.num q.den

/-- Floor of a rational value. -/
def qFloor (q : PyQ) : Int := Int.fdiv q.num q.den

/-- `1 <= q`. -/
def qGE1 (q : PyQ) : Bool := (q.den : Int) ≤ q.num

/-- `0 < q`. -/
def qGT0 (q : PyQ) : Bool := 0 < q.num

/-- `q < 1`. -/
def qLT1 (q : PyQ) : Bool := q.num < (q.den : Int)

/-- Multiply by the image width. -/
def qScaleNat (w : Nat) (q : PyQ) : PyQ := ⟨(w : Int) * q.num, q.den⟩

/-- `compute_font_px` (source lines 113–122): `float(spec)`, literal pixels
when ≥ 1, proportional with a floor of 12 when in (0,1), 36 on any failure.
`int(inf)` raises `OverflowError` inside the `try`, so an infinite parse also
lands on 36; NaN fails both comparisons. -/
def compute_font_px (spec : String) (img_w : Nat) : Int :=
  match pyFloatParse spec with
  | some (.finite q) =>
    if qGE1 q then pyTrunc q
    else if qGT0 q && qLT1 q then max 12 (pyTrunc (qScaleNat img_w q))
    else 36
  | some .inf => 36
  | some .neginf => 36
  | some .nan => 36
  | none => 36

/-- `calc_pos` (source lines 124–134).  Python `//` is floor division, hence
`Int.fdiv`. -/
def calc_pos (pos_name : String) (img_size text_size : Int × Int) (margin : Int) :
    Int × Int :=
  let iw := img_size.1; let ih := img_size.2
  let tw := text_size.1; let th := text_size.2
  if pos_name = "top-left" then (margin, margin)
  else if pos_name = "top-right" then (iw - tw - margin, margin)
  else if pos_name = "bottom-left" then (margin, ih - th - margin)
  else if pos_name = "center" then (Int.fdiv (iw - tw) 2, Int.fdiv (ih - th) 2)
  else (iw - tw - margin, ih - th - margin)

/-- The closed anchor set of the specification's Layout component. -/
inductive Anchor where
  | topLeft
  | topRight
  | bottomLeft
  | bottomRight
  | center
deriving DecidableEq

/-- The spec's reading of an anchor name: the closed set, with every
unrecognized name resolving to bottom-right. -/
def anchorOfName (s : String) : Anchor :=
  if s = "top-left" then .topLeft
  else if s = "top-right" then .topRight
  else if s = "bottom-left" then .bottomLeft
  else if s = "center" then .center
  else .bottomRight

/-- The spec's placement formulas with the claim's division reading
(truncation toward zero, `Int.tdiv`). -/
def place_claim (name : String) (img_size text_size : Int × Int) (m : Int) :
    Int × Int :=
  match anchorOfName name with
  | .topLeft => (m, m)
  | .topRight => (img_size.1 - text_size.1 - m, m)
  | .bottomLeft => (m, img_size.2 - text_size.2 - m)
  | .center => (Int.tdiv (img_size.1 - text_size.1) 2, Int.tdiv (img_size.2 - text_size.2) 2)
  | .bottomRight => (img_size.1 - text_size.1 - m, img_size.2 - text_size.2 - m)

/-- The spec's placement formulas with floor division (Python `//`), the
reading the code actually implements. -/
def place_floor (name : String) (img_size text_size : Int × Int) (m : Int) :
    Int × Int :=
  match anchorOfName name with
  | .topLeft => (m, m)
  | .topRight => (img_size.1 - text_size.1 - m, m)
  | .bottomLeft => (m, img_size.2 - text_size.2 - m)
  | .center => (Int.fdiv (img_size.1 - text_size.1) 2, Int.fdiv (img_size.2 - text_size.2) 2)
  | .bottomRight => (img_size.1 - text_size.1 - m, img_size.2 - text_size.2 - m)

/-- What the three text-measurement tiers return at this call, `none`
modelling the tier raising (`draw.textbbox`, `font.getsize`,
`draw.textsize`). -/
structure MeasureEnv where
  textbbox : Option (Int × Int × Int × Int)
  getsize : Option (Int × Int)
  textsize : Option (Int × Int)

/-- `_measure_text` (source lines 136–160): bounding box first, then the two
legacy size queries, then the deterministic heuristic `(8*len(text), 16)`. -/
def measure_text (env : MeasureEnv) (text : String) : Int × Int :=
  match env.textbbox with
  | some (l, t, r, b) => (r - l, b - t)
  | none =>
    match env.getsize with
    | some wh => wh
    | none =>
      match env.textsize with
      | some wh => wh
      | none => ((8 * text.length : Int), 16)

/-- The outside world of one `process_image` call: the date-resolution
environment plus a flag saying whether the imaging body (open, convert, draw,
save) runs to completion or raises somewhere. -/
structure RenderEnv where
  fileEnv : FileEnv
  renderOk : Bool

/-- The three possible outcomes of `process_image`. -/
inductive ProcOutcome where
  | skippedNoDate
  | renderError
  | savedOk
deriving DecidableEq

/-- `process_image` (source lines 162–201), instrumented with which exit was
taken: a falsy date skips before any imaging; an exception inside the `try`
is caught at the boundary; only a completed save exits via `return True`. -/
def process_image_outcome (env : RenderEnv) : ProcOutcome :=
  if pyOptStrTruthy (get_date_string env.fileEnv) then
    (if env.renderOk then .savedOk else .renderError)
  else .skippedNoDate

/-- The boolean `process_image` actually returns. -/
def process_image (env : RenderEnv) : Bool :=
  match process_image_outcome env with
  | .savedOk => true
  | _ => false

/-! ## Helper lemmas -/

lemma pyTrunc_eq_qFloor (q : PyQ) (h : 0 ≤ q.num) : pyTrunc q = qFloor q := by
  obtain ⟨n, hn⟩ := Int.eq_ofNat_of_zero_le h
  unfold pyTrunc qFloor
  rw [hn]
  cases n with
  | zero => show Int.ofNat (0 / q.den) = Int.fdiv 0 (Int.ofNat q.den); rw [Nat.zero_div]; rfl
  | succ k => rfl

/-! ## C4: layout anchor formulas -/

/-- C4 counterexample: the claim reads the center division as truncation
toward zero, but Python `//` floors; with a text wider than the image the two
disagree: the code yields `(-3, 0)` where the claimed formula yields
`(-2, 0)`. -/
theorem c4_counterexample :
    calc_pos "center" (10, 10) (15, 10) 10 ≠ place_claim "center" (10, 10) (15, 10) 10 := by
  decide

/-- C4 amended: `calc_pos` implements exactly the anchor formulas with the
center division being *floor* division (Python `//`), every unrecognized
anchor resolving to bottom-right; the claim's three concrete examples hold. -/
theorem c4_amended (name : String) (img text : Int × Int) (m : Int) :
    calc_pos name img text m = place_floor name img text m
    ∧ calc_pos "center" (100, 50) (20, 10) 10 = (40, 20)
    ∧ calc_pos "top-right" (100, 50) (20, 10) 10 = (70, 10)
    ∧ calc_pos "unknown-anchor" (100, 50) (20, 10) 10 = (70, 30) := by
  refine ⟨?_, by decide, by decide, by decide⟩
  unfold calc_pos place_floor anchorOfName
  split_ifs <;> rfl

/-! ## C5: color parsing -/

/-- C5 counterexample: the claim says `parse_color` never raises, but for a
7-character `#`-string with non-hex components the uncaught `int(_, 16)`
`ValueError` escapes (modelled by `none`). -/
theorem c5_counterexample : parse_color "#GGGGGG" = none := by decide

/-- C5 amended: `parse_color` parses 7-character `"#RRGGBB"` strings whose
pairs are valid hex into the (R,G,B) triple, resolves the name table
case-insensitively and returns white for anything unrecognized — never
raising *except* for 7-character `#`-strings with invalid hex pairs, where
the `ValueError` propagates. -/
theorem c5_amended (s : String) :
    (¬((pyStrip s.data).headD ' ' = '#' ∧ (pyStrip s.data).length = 7) →
      parse_color s =
        some (namesGet colorNames (String.mk ((pyStrip s.data).map Char.toLower))
          (255, 255, 255)))
    ∧ ((pyStrip s.data).headD ' ' = '#' → (pyStrip s.data).length = 7 →
        ∀ r g b : Int,
          pyIntHexParse (((pyStrip s.data).drop 1).take 2) = some r →
          pyIntHexParse (((pyStrip s.data).drop 3).take 2) = some g →
          pyIntHexParse (((pyStrip s.data).drop 5).take 2) = some b →
          parse_color s = some (r, g, b))
    ∧ ((pyStrip s.data).headD ' ' = '#' → (pyStrip s.data).length = 7 →
        (pyIntHexParse (((pyStrip s.data).drop 1).take 2) = none ∨
         pyIntHexParse (((pyStrip s.data).drop 3).take 2) = none ∨
         pyIntHexParse (((pyStrip s.data).drop 5).take 2) = none) →
        parse_color s = none)
    ∧ parse_color "#FF0000" = some (255, 0, 0)
    ∧ parse_color "Blue" = some (0, 0, 255)
    ∧ parse_color "mauve" = some (255, 255, 255) := by
  refine ⟨?_, ?_, ?_, by decide, by decide, by decide⟩
  · intro h
    unfold parse_color
    rw [if_neg h]
  · intro h1 h2 r g b hr hg hb
    unfold parse_color
    rw [if_pos ⟨h1, h2⟩, hr, hg, hb]
  · intro h1 h2 hdisj
    unfold parse_color
    rw [if_pos ⟨h1, h2⟩]
    rcases hdisj with h | h | h
    · rw [h]
    · cases h0 : pyIntHexParse (((pyStrip s.data).drop 1).take 2) with
      | none => rfl
      | some r => rw [h]
    · cases h0 : pyIntHexParse (((pyStrip s.data).drop 1).take 2) with
      | none => rfl
      | some r =>
        cases h3 : pyIntHexParse (((pyStrip s.data).drop 3).take 2) with
        | none => rfl
        | some g => rw [h]

/-- C5 witness: a fresh valid hex string resolves through the hex branch to
its component triple, and a non-`#` name resolves through the table without
raising. -/
theorem c5_witness :
    parse_color "#0a0B0c" = some (10, 11, 12) ∧
      parse_color "mauve" =
        some (namesGet colorNames (String.mk ((pyStrip "mauve".data).map Char.toLower))
          (255, 255, 255)) :=
  ⟨(c5_amended "#0a0B0c").2.1 (by decide) (by decide) 10 11 12
      (by decide) (by decide) (by decide),
    (c5_amended "mauve").1 (by decide)⟩

/-! ## C6: text measurement tiers -/

/-- C6: `_measure_text` is total over every combination of failing tiers:
a successful bounding box wins; otherwise `font.getsize`; otherwise
`draw.textsize`; when all three raise, the heuristic `(8*len(text), 16)`. -/
theorem c6 (env : MeasureEnv) (text : String) :
    (∀ l t r b, env.textbbox = some (l, t, r, b) → measure_text env text = (r - l, b - t))
    ∧ (env.textbbox = none → ∀ wh, env.getsize = some wh → measure_text env text = wh)
    ∧ (env.textbbox = none → env.getsize = none → ∀ wh, env.textsize = some wh →
        measure_text env text = wh)
    ∧ (env.textbbox = none → env.getsize = none → env.textsize = none →
        measure_text env text = ((8 * text.length : Int), 16)) := by
  refine ⟨?_, ?_, ?_, ?_⟩
  · intro l t r b h; unfold measure_text; rw [h]
  · intro h1 wh h2; unfold measure_text; rw [h1, h2]
  · intro h1 h2 wh h3; unfold measure_text; rw [h1, h2, h3]
  · intro h1 h2 h3; unfold measure_text; rw [h1, h2, h3]

/-- C6 witness: with every tier failing the heuristic extent is returned. -/
theorem c6_witness : measure_text ⟨none, none, none⟩ "ab" = ((16 : Int), 16) := by
  have h := (c6 ⟨none, none, none⟩ "ab").2.2.2 rfl rfl rfl
  simpa using h

/-! ## C9: process_image control flow -/

/-- C9: `process_image` returns `False` exactly on the date-exhausted skip
(before any imaging) and on a caught render-boundary exception, and `True`
exactly after a completed save; the embedding is total, so neither failure
propagates. -/
theorem c9 (env : RenderEnv) :
    (process_image env = false ↔
      process_image_outcome env = .skippedNoDate ∨ process_image_outcome env = .renderError)
    ∧ (process_image env = true ↔ process_image_outcome env = .savedOk)
    ∧ (process_image_outcome env = .skippedNoDate ↔
        pyOptStrTruthy (get_date_string env.fileEnv) = false)
    ∧ (process_image_outcome env = .renderError ↔
        pyOptStrTruthy (get_date_string env.fileEnv) = true ∧ env.renderOk = false)
    ∧ (process_image_outcome env = .savedOk ↔
        pyOptStrTruthy (get_date_string env.fileEnv) = true ∧ env.renderOk = true) := by
  unfold process_image process_image_outcome
  cases hd : pyOptStrTruthy (get_date_string env.fileEnv) <;> cases hr : env.renderOk <;> simp

/-! ## C7: font size resolution -/

/-- C7: `compute_font_px` returns the truncated literal value for a parsed
number ≥ 1 (truncation equals floor there), `max 12` of the scaled width for
a parsed value in (0,1), and 36 on parse failure; with the claim's three
concrete examples. -/
theorem c7 (spec : String) (w : Nat) :
    (∀ q, pyFloatParse spec = some (.finite q) → qGE1 q = true →
      compute_font_px spec w = qFloor q)
    ∧ (∀ q, pyFloatParse spec = some (.finite q) → qGT0 q = true → qLT1 q = true →
        compute_font_px spec w = max 12 (qFloor (qScaleNat w q)))
    ∧ (pyFloatParse spec = none → compute_font_px spec w = 36)
    ∧ compute_font_px "0.5" 100 = 50
    ∧ compute_font_px "abc" w = 36
    ∧ compute_font_px "20" w = 20 := by
  have hred : ∀ q, pyFloatParse spec = some (.finite q) →
      compute_font_px spec w =
        if qGE1 q = true then pyTrunc q
        else if (qGT0 q && qLT1 q) = true then 12 ⊔ pyTrunc (qScaleNat w q) else 36 := by
    intro q hq
    unfold compute_font_px
    rw [hq]
  refine ⟨?_, ?_, ?_, by decide, ?_, ?_⟩
  · intro q hq hge
    have hnum : (0 : Int) ≤ q.num := by
      have h1 := of_decide_eq_true hge
      have hden : (0 : Int) ≤ (q.den : Int) := Int.ofNat_nonneg q.den
      omega
    rw [hred q hq, if_pos hge]
    exact pyTrunc_eq_qFloor q hnum
  · intro q hq hgt hlt
    have hgt' : (0 : Int) < q.num := of_decide_eq_true hgt
    have hlt' : q.num < (q.den : Int) := of_decide_eq_true hlt
    rw [hred q hq, if_neg ?hno, if_pos ?hyes]
    case hno =>
      intro hc
      have h1 := of_decide_eq_true hc
      omega
    case hyes => rw [hgt, hlt]; rfl
    have hnn : (0 : Int) ≤ (qScaleNat w q).num := by
      show (0 : Int) ≤ (w : Int) * q.num
      exact mul_nonneg (Int.ofNat_nonneg w) hgt'.le
    rw [pyTrunc_eq_qFloor _ hnn]
  · intro h
    unfold compute_font_px
    rw [h]
  · have h : pyFloatParse "abc" = none := by decide
    unfold compute_font_px
    rw [h]
  · have h : pyFloatParse "20" = some (.finite ⟨20, 1⟩) := by decide
    have h2 : compute_font_px "20" w =
        if qGE1 ⟨20, 1⟩ = true then pyTrunc ⟨20, 1⟩
        else if (qGT0 ⟨20, 1⟩ && qLT1 ⟨20, 1⟩) = true then
          12 ⊔ pyTrunc (qScaleNat w ⟨20, 1⟩) else 36 := by
      unfold compute_font_px
      rw [h]
    rw [h2, if_pos (by decide)]
    decide

/-- C7 witness: a literal pixel spec `"7"` resolves to 7. -/
theorem c7_witness : compute_font_px "7" 3 = qFloor ⟨7, 1⟩ :=
  (c7 "7" 3).1 ⟨7, 1⟩ (by decide) (by decide)

/-! ## C3: tier priority of date extraction -/

lemma pyOptStrTruthy_of_ne (s : String) (h : s ≠ "") : pyOptStrTruthy (some s) = true := by
  show (!s.data.isEmpty) = true
  cases hs : s.data with
  | nil => exact absurd (String.ext (hs.trans rfl)) h
  | cons c cs => rfl

lemma get_date_from_pillow_dict (env : FileEnv) (dict : List (Nat × PyVal))
    (hpe : env.pillowExif = some (some dict)) (hne : dict.isEmpty = false) :
    get_date_from_pillow env =
      match probePillow dict with
      | some v => format_exif_raw v
      | none => none := by
  unfold get_date_from_pillow
  rw [hpe]
  show (if dict.isEmpty = true then none
        else match probePillow dict with | some v => format_exif_raw v | none => none) = _
  rw [hne, if_neg Bool.false_ne_true]

/-- C3: the piexif tier wins whenever it yields a (truthy) date, whatever the
Pillow dictionary or the file time hold; inside the piexif tier a present
truthy `DateTimeOriginal` alone determines the result (the `DateTime` slot is
not consulted); the Pillow tier takes the first present truthy tag in the
order `DateTimeOriginal` (36867), `DateTime` (306), `DateTimeDigitized`
(36868). -/
theorem c3 (env : FileEnv) :
    (∀ ds, get_date_from_piexif env = some ds → ds ≠ "" → get_date_string env = some ds)
    ∧ (∀ pd v, env.havePiexif = true → env.piexifLoad = some pd → pd.exifDTO = some v →
        pyValTruthy v = true →
        get_date_from_piexif env = (rawOf v).bind (fun raw => format_exif_raw (.vstr raw)))
    ∧ (∀ dict v, env.pillowExif = some (some dict) → lookupTag dict 36867 = some v →
        pyValTruthy v = true → get_date_from_pillow env = format_exif_raw v)
    ∧ (∀ dict v, env.pillowExif = some (some dict) →
        (∀ u, lookupTag dict 36867 = some u → pyValTruthy u = false) →
        lookupTag dict 306 = some v → pyValTruthy v = true →
        get_date_from_pillow env = format_exif_raw v)
    ∧ (∀ dict v, env.pillowExif = some (some dict) →
        (∀ u, lookupTag dict 36867 = some u → pyValTruthy u = false) →
        (∀ u, lookupTag dict 306 = some u → pyValTruthy u = false) →
        lookupTag dict 36868 = some v → pyValTruthy v = true →
        get_date_from_pillow env = format_exif_raw v) := by
  have hstep : ∀ dict t v, lookupTag dict t = some v → pyValTruthy v = true →
      probeStep dict t = some v := by
    intro dict t v hl ht
    unfold probeStep
    rw [hl]
    show (if pyValTruthy v = true then some v else none) = some v
    rw [if_pos ht]
  have hstepnone : ∀ dict t, (∀ u, lookupTag dict t = some u → pyValTruthy u = false) →
      probeStep dict t = none := by
    intro dict t hall
    unfold probeStep
    cases hl : lookupTag dict t with
    | none => rfl
    | some u =>
      show (if pyValTruthy u = true then some u else none) = none
      rw [hall u hl, if_neg Bool.false_ne_true]
  have hnemp : ∀ (dict : List (Nat × PyVal)) t v, lookupTag dict t = some v →
      dict.isEmpty = false := by
    intro dict t v hl
    cases dict with
    | nil => simp [lookupTag] at hl
    | cons p r => rfl
  refine ⟨?_, ?_, ?_, ?_, ?_⟩
  · intro ds hds hne'
    have hp : env.havePiexif = true := by
      cases hp : env.havePiexif with
      | true => rfl
      | false =>
        unfold get_date_from_piexif at hds
        rw [hp] at hds
        simp at hds
    simp [get_date_string, hp, hds, pyOptStrTruthy_of_ne ds hne']
  · intro pd v hp hload hdto htr
    unfold get_date_from_piexif
    rw [hp]
    simp only [Bool.true_eq_false, if_false]
    rw [hload]
    show (match pd.exifDTO with
          | some v =>
            if pyValTruthy v then
              match rawOf v with
              | some raw => format_exif_raw (.vstr raw)
              | none => none
            else piexifSecond pd
          | none => piexifSecond pd) = _
    rw [hdto]
    show (if pyValTruthy v = true then
            match rawOf v with
            | some raw => format_exif_raw (.vstr raw)
            | none => none
          else piexifSecond pd) = _
    rw [if_pos htr]
    cases rawOf v <;> rfl
  · intro dict v hpe hlook htr
    rw [get_date_from_pillow_dict env dict hpe (hnemp dict _ v hlook)]
    unfold probePillow
    rw [hstep dict _ v hlook htr]
  · intro dict v hpe hall hlook htr
    rw [get_date_from_pillow_dict env dict hpe (hnemp dict _ v hlook)]
    unfold probePillow
    rw [hstepnone dict _ hall, hstep dict _ v hlook htr]
  · intro dict v hpe hall1 hall2 hlook htr
    rw [get_date_from_pillow_dict env dict hpe (hnemp dict _ v hlook)]
    unfold probePillow
    rw [hstepnone dict _ hall1, hstepnone dict _ hall2, hstep dict _ v hlook htr]

/-- C3 witness: with all four tiers holding different dates, the piexif
`DateTimeOriginal` value wins. -/
theorem c3_witness :
    get_date_string
      ⟨true, some ⟨some (.vstr "2022:07:04 10:00:00"), some (.vstr "2021:01:01 00:00:00")⟩,
       some (some [(306, .vstr "2020:01:01 00:00:00")]), some (2019, 1, 1)⟩
      = some "2022-07-04" :=
  (c3 ⟨true, some ⟨some (.vstr "2022:07:04 10:00:00"), some (.vstr "2021:01:01 00:00:00")⟩,
       some (some [(306, .vstr "2020:01:01 00:00:00")]), some (2019, 1, 1)⟩).1
    "2022-07-04" (by decide) (by decide)

/-! ## C8: filesystem fallback -/

/-- C8: when neither metadata tier yields a truthy date, `get_date_string`
returns the modification date in canonical form for an accessible file, and
`None` when `getmtime` raises. -/
theorem c8 (env : FileEnv)
    (h1 : pyOptStrTruthy (get_date_from_piexif env) = false)
    (h2 : pyOptStrTruthy (get_date_from_pillow env) = false) :
    (∀ y m d, env.mtimeDate = some (y, m, d) → get_date_string env = some (strfDate y m d))
    ∧ (env.mtimeDate = none → get_date_string env = none) := by
  have hd1 : pyOptStrTruthy (if env.havePiexif then get_date_from_piexif env else none) =
      false := by
    cases hp : env.havePiexif with
    | true => simpa using h1
    | false => rfl
  constructor
  · intro y m d hm
    unfold get_date_string
    rw [hd1]
    simp only [Bool.false_eq_true, if_false]
    rw [h2]
    simp only [Bool.false_eq_true, if_false]
    rw [hm]
  · intro hm
    unfold get_date_string
    rw [hd1]
    simp only [Bool.false_eq_true, if_false]
    rw [h2]
    simp only [Bool.false_eq_true, if_false]
    rw [hm]

/-- C8 witness: no piexif, a raising Pillow read, an accessible file. -/
theorem c8_witness :
    get_date_string ⟨false, none, none, some (2023, 5, 7)⟩ = some (strfDate 2023 5 7) :=
  (c8 ⟨false, none, none, some (2023, 5, 7)⟩ (by decide) (by decide)).1 2023 5 7 rfl

/-! ## C10: non-string raw values -/

/-- C10: `format_exif_raw` maps every non-string (bytes, `None`) and the
empty string to absent; since the Pillow tier passes the probed tag value to
`format_exif_raw` undecoded, a bytes-valued tag makes that tier yield
absent. -/
theorem c10 (b : List Nat) (env : FileEnv) (dict : List (Nat × PyVal)) :
    format_exif_raw (.vbytes b) = none
    ∧ format_exif_raw .vnone = none
    ∧ format_exif_raw (.vstr "") = none
    ∧ (env.pillowExif = some (some dict) → probePillow dict = some (.vbytes b) →
        get_date_from_pillow env = none) := by
  refine ⟨rfl, rfl, by decide, ?_⟩
  intro hpe hprobe
  have hne : dict.isEmpty = false := by
    cases dict with
    | nil => simp [probePillow, probeStep, lookupTag] at hprobe
    | cons p r => rfl
  rw [get_date_from_pillow_dict env dict hpe hne, hprobe]
  rfl

/-- C10 witness: a Pillow dictionary whose `DateTimeOriginal` holds the bytes
`b"20"`. -/
theorem c10_witness :
    get_date_from_pillow ⟨true, none, some (some [(36867, PyVal.vbytes [50, 48])]), none⟩
      = none :=
  (c10 [50, 48] ⟨true, none, some (some [(36867, PyVal.vbytes [50, 48])]), none⟩
    [(36867, PyVal.vbytes [50, 48])]).2.2.2 rfl (by decide)


/-! ## C1/C2: date normalization -/

lemma dropWhile_eq_self_of (p : Char → Bool) (l : List Char)
    (h : ∀ c ∈ l, p c = false) : l.dropWhile p = l := by
  cases l with
  | nil => rfl
  | cons c cs =>
    have hc : p c = false := h c (List.mem_cons_self c cs)
    rw [List.dropWhile_cons, hc, if_neg Bool.false_ne_true]

lemma dropWhile_append_fix (p : Char → Bool) (x y : List Char)
    (hy : y.dropWhile p = y) : (x ++ y).dropWhile p = x.dropWhile p ++ y := by
  induction x with
  | nil => simpa using hy
  | cons c cs ih =>
    by_cases hc : p c = true
    · rw [List.cons_append, List.dropWhile_cons, List.dropWhile_cons, hc, if_pos rfl,
        if_pos rfl, ih]
    · have hc2 : p c = false := by revert hc; cases p c <;> simp
      rw [List.cons_append, List.dropWhile_cons, List.dropWhile_cons, hc2,
        if_neg Bool.false_ne_true, if_neg Bool.false_ne_true, List.cons_append]

lemma dropWhile_append_single (p : Char → Bool) (x : List Char) (a : Char) :
    (x ++ [a]).dropWhile p = [] ∨ ∃ z, (x ++ [a]).dropWhile p = z ++ [a] := by
  induction x with
  | nil =>
    by_cases h : p a = true
    · left; simp [List.dropWhile_cons, h]
    · right
      have h2 : p a = false := by revert h; cases p a <;> simp
      exact ⟨[], by rw [List.nil_append, List.dropWhile_cons, h2,
        if_neg Bool.false_ne_true]⟩
  | cons c cs ih =>
    by_cases h : p c = true
    · rw [List.cons_append, List.dropWhile_cons, h, if_pos rfl]
      exact ih
    · right
      have h2 : p c = false := by revert h; cases p c <;> simp
      exact ⟨c :: cs, by rw [List.cons_append, List.dropWhile_cons, h2,
        if_neg Bool.false_ne_true]⟩

lemma pyStrip_eq_self (l : List Char) (h : ∀ c ∈ l, pyIsSpace c = false) :
    pyStrip l = l := by
  unfold pyStrip stripTrailing
  rw [dropWhile_eq_self_of _ _ h,
    dropWhile_eq_self_of _ _ (fun c hc => h c (List.mem_reverse.mp hc)),
    List.reverse_reverse]

lemma pyStrip_append (D r : List Char) (hne : D ≠ [])
    (hD : ∀ c ∈ D, pyIsSpace c = false) :
    pyStrip (D ++ r) = D ++ stripTrailing r := by
  unfold pyStrip
  have h1 : (D ++ r).dropWhile pyIsSpace = D ++ r := by
    obtain ⟨c, cs, rfl⟩ := List.exists_cons_of_ne_nil hne
    have hc : pyIsSpace c = false := hD c (List.mem_cons_self c cs)
    rw [List.cons_append, List.dropWhile_cons, hc, if_neg Bool.false_ne_true]
  rw [h1]
  unfold stripTrailing
  rw [List.reverse_append,
    dropWhile_append_fix _ _ _
      (dropWhile_eq_self_of _ _ (fun c hc => hD c (List.mem_reverse.mp hc))),
    List.reverse_append, List.reverse_reverse]

lemma stripTrailing_headD (r : List Char) (h : r.headD ' ' = ' ') :
    (stripTrailing r).headD ' ' = ' ' := by
  cases r with
  | nil => rfl
  | cons x xs =>
    have hx : x = ' ' := by simpa using h
    subst hx
    unfold stripTrailing
    rcases dropWhile_append_single pyIsSpace xs.reverse ' ' with h0 | ⟨z, hz⟩
    · rw [List.reverse_cons, h0]; rfl
    · rw [List.reverse_cons, hz, List.reverse_append]; rfl

lemma splitOnChar_ne_nil (c : Char) (l : List Char) : splitOnChar c l ≠ [] := by
  cases l with
  | nil => simp [splitOnChar]
  | cons x xs =>
    unfold splitOnChar
    by_cases h : x = c
    · simp [h]
    · rw [if_neg h]
      cases splitOnChar c xs <;> simp

lemma firstField_cons_of_ne (x : Char) (xs : List Char) (h : x ≠ ' ') :
    firstField (x :: xs) = x :: firstField xs := by
  unfold firstField
  rw [splitOnChar, if_neg h]
  cases hs : splitOnChar ' ' xs with
  | nil => exact absurd hs (splitOnChar_ne_nil ' ' xs)
  | cons hd tl => rfl

lemma firstField_space (xs : List Char) : firstField (' ' :: xs) = [] := by
  unfold firstField
  rw [splitOnChar, if_pos rfl]
  rfl

lemma firstField_append (a r : List Char) (ha : ∀ c ∈ a, c ≠ ' ')
    (hr : r.headD ' ' = ' ') : firstField (a ++ r) = a := by
  induction a with
  | nil =>
    cases r with
    | nil => rfl
    | cons x xs =>
      have hx : x = ' ' := by simpa using hr
      subst hx
      exact firstField_space xs
  | cons c cs ih =>
    rw [List.cons_append, firstField_cons_of_ne c _ (ha c (List.mem_cons_self c cs)),
      ih (fun d hd => ha d (List.mem_cons_of_mem c hd))]

lemma splitOnChar_not_mem (c : Char) (l : List Char) (h : ∀ x ∈ l, x ≠ c) :
    splitOnChar c l = [l] := by
  induction l with
  | nil => rfl
  | cons x xs ih =>
    rw [splitOnChar, if_neg (h x (List.mem_cons_self x xs)),
      ih (fun y hy => h y (List.mem_cons_of_mem x hy))]

lemma splitOnChar_append (c : Char) (a l : List Char) (h : ∀ x ∈ a, x ≠ c) :
    splitOnChar c (a ++ c :: l) = a :: splitOnChar c l := by
  induction a with
  | nil => rw [List.nil_append, splitOnChar, if_pos rfl]
  | cons x xs ih =>
    rw [List.cons_append, splitOnChar, if_neg (h x (List.mem_cons_self x xs)),
      ih (fun y hy => h y (List.mem_cons_of_mem x hy))]

lemma map_eq_self_of (f : Char → Char) (l : List Char) (h : ∀ c ∈ l, f c = c) :
    l.map f = l := by
  induction l with
  | nil => rfl
  | cons c cs ih =>
    rw [List.map_cons, h c (List.mem_cons_self c cs),
      ih (fun d hd => h d (List.mem_cons_of_mem c hd))]

lemma digitChar_props (k : Nat) (hk : k < 10) :
    isAsciiDigit (Nat.digitChar k) = true ∧ digitVal (Nat.digitChar k) = k ∧
    pyIsSpace (Nat.digitChar k) = false ∧ Nat.digitChar k ≠ '+' ∧
    Nat.digitChar k ≠ '-' ∧ Nat.digitChar k ≠ ':' ∧ Nat.digitChar k ≠ ' ' := by
  interval_cases k <;> exact ⟨rfl, rfl, rfl, by decide, by decide, by decide, by decide⟩

lemma mem_pad4 (n : Nat) (c : Char) (h : c ∈ pad4 n) :
    ∃ k, k < 10 ∧ c = Nat.digitChar k := by
  simp only [pad4, List.mem_cons, List.not_mem_nil, or_false] at h
  rcases h with rfl | rfl | rfl | rfl <;>
    exact ⟨_, Nat.mod_lt _ (by norm_num), rfl⟩

lemma mem_pad2 (n : Nat) (c : Char) (h : c ∈ pad2 n) :
    ∃ k, k < 10 ∧ c = Nat.digitChar k := by
  simp only [pad2, List.mem_cons, List.not_mem_nil, or_false] at h
  rcases h with rfl | rfl <;>
    exact ⟨_, Nat.mod_lt _ (by norm_num), rfl⟩

lemma parseUDigits_cons (c : Char) (cs : List Char) :
    parseUDigits (c :: cs) =
      if isAsciiDigit c then parseUDigitsCore (digitVal c) 1 cs else none := rfl

lemma parseUDigitsCore_nil (accv accn : Nat) :
    parseUDigitsCore accv accn [] = some (accv, accn) := rfl

lemma parseUDigitsCore_cons (accv accn : Nat) (c : Char) (cs : List Char) :
    parseUDigitsCore accv accn (c :: cs) =
      if isAsciiDigit c then parseUDigitsCore (accv * 10 + digitVal c) (accn + 1) cs
      else if c = '_' then
        match cs with
        | [] => none
        | c2 :: cs2 =>
          if isAsciiDigit c2 then parseUDigitsCore (accv * 10 + digitVal c2) (accn + 1) cs2
          else none
      else none := by
  cases cs <;> rfl

lemma pyIntParse_pad2 (n : Nat) (hn : n ≤ 99) : pyIntParse (pad2 n) = some (n : Int) := by
  have h1 : n / 10 % 10 < 10 := Nat.mod_lt _ (by norm_num)
  have h2 : n % 10 < 10 := Nat.mod_lt _ (by norm_num)
  obtain ⟨a1, a2, a3, a4, a5, a6, a7⟩ := digitChar_props _ h1
  obtain ⟨b1, b2, b3, b4, b5, b6, b7⟩ := digitChar_props _ h2
  have hmem : ∀ c ∈ pad2 n, pyIsSpace c = false := by
    intro c hc
    obtain ⟨k, hk, rfl⟩ := mem_pad2 n c hc
    exact (digitChar_props k hk).2.2.1
  unfold pyIntParse
  rw [pyStrip_eq_self _ hmem]
  unfold pad2
  rw [List.headD_cons, if_neg a4, if_neg a5]
  rw [parseUDigits_cons, if_pos a1, parseUDigitsCore_cons, if_pos b1, parseUDigitsCore_nil]
  rw [a2, b2]
  simp only [Option.map_some', Option.some.injEq]
  norm_cast
  omega

lemma pyIntParse_pad4 (n : Nat) (hn : n ≤ 9999) :
    pyIntParse (pad4 n) = some (n : Int) := by
  have h1 : n / 1000 % 10 < 10 := Nat.mod_lt _ (by norm_num)
  have h2 : n / 100 % 10 < 10 := Nat.mod_lt _ (by norm_num)
  have h3 : n / 10 % 10 < 10 := Nat.mod_lt _ (by norm_num)
  have h4 : n % 10 < 10 := Nat.mod_lt _ (by norm_num)
  obtain ⟨a1, a2, a3, a4, a5, a6, a7⟩ := digitChar_props _ h1
  obtain ⟨b1, b2, b3, b4, b5, b6, b7⟩ := digitChar_props _ h2
  obtain ⟨c1, c2, c3, c4, c5, c6, c7⟩ := digitChar_props _ h3
  obtain ⟨d1, d2, d3, d4, d5, d6, d7⟩ := digitChar_props _ h4
  have hmem : ∀ c ∈ pad4 n, pyIsSpace c = false := by
    intro c hc
    obtain ⟨k, hk, rfl⟩ := mem_pad4 n c hc
    exact (digitChar_props k hk).2.2.1
  unfold pyIntParse
  rw [pyStrip_eq_self _ hmem]
  unfold pad4
  rw [List.headD_cons, if_neg a4, if_neg a5]
  rw [parseUDigits_cons, if_pos a1, parseUDigitsCore_cons, if_pos b1,
    parseUDigitsCore_cons, if_pos c1, parseUDigitsCore_cons, if_pos d1,
    parseUDigitsCore_nil]
  rw [a2, b2, c2, d2]
  simp only [Option.map_some', Option.some.injEq]
  norm_cast
  omega

lemma daysInMonth_le (y m : Nat) : daysInMonth y m ≤ 31 := by
  unfold daysInMonth
  split_ifs <;> norm_num

lemma format_exif_raw_vstr (s : String) :
    format_exif_raw (.vstr s) =
      if s.data.isEmpty = true then none
      else parseDateTriple (dateComponents s.data) := rfl

lemma parseDateTriple_cons (p0 p1 p2 : List Char) (r : List (List Char)) :
    parseDateTriple (p0 :: p1 :: p2 :: r) =
      match pyIntParse p0, pyIntParse p1, pyIntParse p2 with
      | some yv, some mv, some dv =>
        if datetimeOK yv mv dv then some (strfDate yv.toNat mv.toNat dv.toNat) else none
      | _, _, _ => none := rfl

lemma malformedTriple_cons (p0 p1 p2 : List Char) (r : List (List Char)) :
    malformedTriple (p0 :: p1 :: p2 :: r) =
      match pyIntParse p0, pyIntParse p1, pyIntParse p2 with
      | some yv, some mv, some dv => !datetimeOK yv mv dv
      | _, _, _ => true := rfl

lemma parseDateTriple_eq_none (parts : List (List Char))
    (h : malformedTriple parts = true) : parseDateTriple parts = none := by
  rcases parts with _ | ⟨p0, _ | ⟨p1, _ | ⟨p2, r⟩⟩⟩
  · rfl
  · rfl
  · rfl
  · rw [malformedTriple_cons] at h
    rw [parseDateTriple_cons]
    cases h0 : pyIntParse p0 with
    | none => rfl
    | some yv =>
      cases h1 : pyIntParse p1 with
      | none => rfl
      | some mv =>
        cases h2 : pyIntParse p2 with
        | none => rfl
        | some dv =>
          rw [h0, h1, h2] at h
          simp only [Bool.not_eq_true'] at h
          show (if datetimeOK yv mv dv = true
                then some (strfDate yv.toNat mv.toNat dv.toNat) else none) = none
          rw [h, if_neg Bool.false_ne_true]

/-- C2: every malformed or out-of-range date string — fewer than three
components after the split pipeline, a non-numeric component among the first
three, or a numeric triple that is not a real calendar date — yields absent;
the embedding is a total function, mirroring the `except` that swallows every
error. -/
theorem c2 (s : String) (h : malformedDateInput s = true) :
    format_exif_raw (.vstr s) = none := by
  rw [format_exif_raw_vstr]
  by_cases he : s.data.isEmpty = true
  · rw [if_pos he]
  · rw [if_neg he]
    exact parseDateTriple_eq_none _ h

/-- C2 witness: the claim's example `"2023:13:40"` is malformed (month 13)
and maps to absent. -/
theorem c2_witness :
    malformedDateInput "2023:13:40" = true ∧
      format_exif_raw (.vstr "2023:13:40") = none :=
  ⟨by decide, c2 "2023:13:40" (by decide)⟩

/-- C1: every well-formed date string — zero-padded `YYYY`/`MM`/`DD` joined
by `:` or by `-`, optionally followed by further text after a space — whose
numeric triple is a real calendar date normalizes to exactly the canonical
`YYYY-MM-DD` string. -/
theorem c1 (y m d : Nat) (sep : Char) (hsep : sep = ':' ∨ sep = '-')
    (rest : List Char) (hrest : rest = [] ∨ rest.headD ' ' = ' ')
    (hv : isValidDate y m d = true) :
    format_exif_raw
        (.vstr (String.mk (pad4 y ++ sep :: (pad2 m ++ sep :: (pad2 d ++ rest)))))
      = some (strfDate y m d) := by
  simp only [isValidDate, Bool.and_eq_true, decide_eq_true_eq] at hv
  obtain ⟨⟨⟨⟨⟨hy1, hy2⟩, hm1⟩, hm2⟩, hd1⟩, hd2⟩ := hv
  have hassoc : pad4 y ++ sep :: (pad2 m ++ sep :: (pad2 d ++ rest))
      = (pad4 y ++ sep :: (pad2 m ++ sep :: pad2 d)) ++ rest := by
    simp [List.append_assoc]
  rw [hassoc, format_exif_raw_vstr]
  set D : List Char := pad4 y ++ sep :: (pad2 m ++ sep :: pad2 d) with hDdef
  have hsepc : pyIsSpace sep = false ∧ sep ≠ ' ' := by
    rcases hsep with rfl | rfl <;> exact ⟨by decide, by decide⟩
  have hsep_colon : dashToColon sep = ':' := by
    rcases hsep with rfl | rfl <;> rfl
  have hpad4 : ∀ c ∈ pad4 y, pyIsSpace c = false ∧ c ≠ ' ' ∧ c ≠ ':' ∧ c ≠ '-' := by
    intro c hc
    obtain ⟨k, hk, rfl⟩ := mem_pad4 y c hc
    obtain ⟨_, _, p3, _, p5, p6, p7⟩ := digitChar_props k hk
    exact ⟨p3, p7, p6, p5⟩
  have hpad2m : ∀ c ∈ pad2 m, pyIsSpace c = false ∧ c ≠ ' ' ∧ c ≠ ':' ∧ c ≠ '-' := by
    intro c hc
    obtain ⟨k, hk, rfl⟩ := mem_pad2 m c hc
    obtain ⟨_, _, p3, _, p5, p6, p7⟩ := digitChar_props k hk
    exact ⟨p3, p7, p6, p5⟩
  have hpad2d : ∀ c ∈ pad2 d, pyIsSpace c = false ∧ c ≠ ' ' ∧ c ≠ ':' ∧ c ≠ '-' := by
    intro c hc
    obtain ⟨k, hk, rfl⟩ := mem_pad2 d c hc
    obtain ⟨_, _, p3, _, p5, p6, p7⟩ := digitChar_props k hk
    exact ⟨p3, p7, p6, p5⟩
  have hD : ∀ c ∈ D, pyIsSpace c = false ∧ c ≠ ' ' := by
    intro c hc
    rw [hDdef] at hc
    simp only [List.mem_append, List.mem_cons] at hc
    rcases hc with h | rfl | h | rfl | h
    · exact ⟨(hpad4 c h).1, (hpad4 c h).2.1⟩
    · exact ⟨hsepc.1, hsepc.2⟩
    · exact ⟨(hpad2m c h).1, (hpad2m c h).2.1⟩
    · exact ⟨hsepc.1, hsepc.2⟩
    · exact ⟨(hpad2d c h).1, (hpad2d c h).2.1⟩
  have hDne : D ≠ [] := by
    rw [hDdef]
    simp [pad4]
  have hd0 : (String.mk (D ++ rest)).data = D ++ rest := rfl
  rw [hd0]
  have hemp : (D ++ rest).isEmpty = false := by
    cases hcc : D ++ rest with
    | nil => exact absurd (List.append_eq_nil.mp hcc).1 hDne
    | cons a b => rfl
  rw [hemp, if_neg Bool.false_ne_true]
  have hrest2 : rest.headD ' ' = ' ' := by
    rcases hrest with rfl | hh
    · rfl
    · exact hh
  have hcomp : dateComponents (D ++ rest) = [pad4 y, pad2 m, pad2 d] := by
    unfold dateComponents
    rw [pyStrip_append D rest hDne (fun c hc => (hD c hc).1)]
    rw [firstField_append D (stripTrailing rest) (fun c hc => (hD c hc).2)
      (stripTrailing_headD rest hrest2)]
    rw [hDdef]
    simp only [List.map_append, List.map_cons]
    rw [hsep_colon,
      map_eq_self_of _ _ (fun c hc => by
        unfold dashToColon; rw [if_neg (hpad4 c hc).2.2.2]),
      map_eq_self_of _ _ (fun c hc => by
        unfold dashToColon; rw [if_neg (hpad2m c hc).2.2.2]),
      map_eq_self_of _ _ (fun c hc => by
        unfold dashToColon; rw [if_neg (hpad2d c hc).2.2.2])]
    rw [splitOnChar_append ':' (pad4 y) _ (fun x hx => (hpad4 x hx).2.2.1),
      splitOnChar_append ':' (pad2 m) _ (fun x hx => (hpad2m x hx).2.2.1),
      splitOnChar_not_mem ':' (pad2 d) (fun x hx => (hpad2d x hx).2.2.1)]
  have hdim := daysInMonth_le y m
  rw [hcomp, parseDateTriple_cons, pyIntParse_pad4 y hy2,
    pyIntParse_pad2 m (by omega), pyIntParse_pad2 d (by omega)]
  have hdok : datetimeOK (y : Int) (m : Int) (d : Int) = true := by
    simp only [datetimeOK, Bool.and_eq_true, decide_eq_true_eq, Int.toNat_ofNat]
    omega
  show (if datetimeOK (y : Int) (m : Int) (d : Int) = true
        then some (strfDate ((y : Int)).toNat ((m : Int)).toNat ((d : Int)).toNat)
        else none)
      = some (strfDate y m d)
  rw [if_pos hdok, Int.toNat_ofNat, Int.toNat_ofNat, Int.toNat_ofNat]

/-- C1 witness: the EXIF-style input `"2022:07:04 10:00:00"` normalizes to
`"2022-07-04"`. -/
theorem c1_witness :
    format_exif_raw (.vstr "2022:07:04 10:00:00") = some "2022-07-04" := by
  have h := c1 2022 7 4 ':' (Or.inl rfl) (' ' :: "10:00:00".data)
    (Or.inr rfl) (by decide)
  have e1 : String.mk
        (pad4 2022 ++ ':' :: (pad2 7 ++ ':' :: (pad2 4 ++ (' ' :: "10:00:00".data))))
      = "2022:07:04 10:00:00" := by decide
  have e2 : strfDate 2022 7 4 = "2022-07-04" := by decide
  rw [e1, e2] at h
  exact h

end ExifWatermarker
